import Mathlib

/- Verification of the AgentOne task-orchestration core (agent.py, tools.py)
   against its natural-language specification.

   Modelling conventions (shallow embedding):
   - Python values flowing through the core (JSON-decoded data, tool-outcome
     dictionaries, step fields) are modelled by the inductive `PyVal`;
     Python dictionaries by association lists in insertion order.
   - A Python operation that can raise is modelled as returning
     `Except String α`; `try/except` blocks are modelled by matching on the
     `Except` value.  A function whose Lean model returns a bare value (not
     `Except`) therefore models a Python function that never raises.
   - The chat-completion backend (`LLMClient.chat_completion`), the bodies of
     the four registered tools, and the standard-library `json.loads` are
     external collaborators; they are oracle parameters, universally
     quantified in the theorems.  A concrete executable `json.loads` model
     (`jsonParseModel`) is supplied for closed instances.
   - `datetime.now()` is modelled by a natural-number clock in the agent
     state, incremented at each call. -/

/-- Model of the Python values that flow through the agent core:
JSON-decoded values, tool-outcome dictionary entries and math results.
`vbuiltin` models a Python builtin-function object such as `abs`. -/
inductive PyVal : Type where
  | vnone : PyVal
  | vbool : Bool → PyVal
  | vint : Int → PyVal
  | vstr : String → PyVal
  | varr : List PyVal → PyVal
  | vdict : List (String × PyVal) → PyVal
  | vbuiltin : String → PyVal

/-- A Python dictionary with string keys, in insertion order. -/
abbrev PyDict := List (String × PyVal)

/-- `d.get(k)` on a Python dict: first binding of the key, if any. -/
def dget (d : PyDict) (k : String) : Option PyVal :=
  (d.find? (fun p => p.1 == k)).map (fun p => p.2)

/-- `d.get(k, dflt)` on a Python dict. -/
def dgetD (d : PyDict) (k : String) (dflt : PyVal) : PyVal :=
  (dget d k).getD dflt

/-- Python truthiness of a value (`if v:`). -/
def pyTruthy : PyVal → Bool
  | .vnone => false
  | .vbool b => b
  | .vint n => n != 0
  | .vstr s => s != ""
  | .varr xs => !xs.isEmpty
  | .vdict fs => !fs.isEmpty
  | .vbuiltin _ => true

/-- Python `str()` of a value, as used for f-string interpolation of step
fields; only scalar cases are reached by the modelled code paths, the
container cases are best-effort renderings. -/
def pyStr : PyVal → String
  | .vnone => "None"
  | .vbool b => if b then "True" else "False"
  | .vint n => toString n
  | .vstr s => s
  | .varr _ => "[...]"
  | .vdict _ => "\x7b...\x7d"
  | .vbuiltin f => "<built-in function " ++ f ++ ">"

/-- Python `str.strip()`: remove leading and trailing whitespace,
on the character-list representation of the string. -/
def trimL (s : List Char) : List Char :=
  ((s.dropWhile Char.isWhitespace).reverse.dropWhile Char.isWhitespace).reverse

/-- Python `s.replace(p, "")` for a pattern `p`: delete every
(left-to-right, non-overlapping) occurrence of `p` in `s`.  For empty `p`
Python would interleave empty insertions; the agent only uses non-empty
patterns, and for those this recursion is Python's semantics. -/
def replaceDelGo (p : List Char) : Nat → List Char → List Char
  | 0, s => s
  | _, [] => []
  | fuel + 1, c :: rest =>
    if p ≠ [] ∧ p.isPrefixOf (c :: rest) then
      replaceDelGo p fuel ((c :: rest).drop p.length)
    else
      c :: replaceDelGo p fuel rest

/-- `replaceDelGo` driven with enough fuel to scan the whole text (each
step consumes at least one character, so `s.length` steps suffice). -/
def replaceDel (p s : List Char) : List Char :=
  replaceDelGo p s.length s

/-- The sanitization in `MathTool.execute` (tools.py line 219):
`expression.replace('eval', '').replace('exec', '')`. -/
def sanitizeL (s : List Char) : List Char :=
  replaceDel "exec".toList (replaceDel "eval".toList s)

/-- String-level wrapper of `sanitizeL`. -/
def sanitizeExpr (s : String) : String :=
  String.mk (sanitizeL s.toList)

/-- The seven-character opening fence marker recognized by `plan_task`. -/
def fenceJson : List Char := "```json".toList

/-- The bare triple-backtick fence marker. -/
def fenceMark : List Char := "```".toList

/-- The code-fence stripping of `AIAgent.plan_task` (agent.py lines 110-117):
drop a leading `"```json"` (7 characters) or else a leading `"```"`
(3 characters), then drop a trailing `"```"`; each test is a plain
(case-sensitive) `startswith`/`endswith`. -/
def stripFenceL (s : List Char) : List Char :=
  let s1 := if fenceJson.isPrefixOf s then s.drop 7
            else if fenceMark.isPrefixOf s then s.drop 3
            else s
  if fenceMark.isSuffixOf s1 then s1.take (s1.length - 3) else s1

/-- The response-cleaning phase of `AIAgent.plan_task` (agent.py lines
103-123): strip whitespace, reject an empty reply, strip code fences,
re-strip and re-check emptiness.  `.error` models the `ValueError` raised
(and later caught) on an empty reply. -/
def cleanLLMResponse (r : String) : Except String String :=
  let t := trimL r.toList
  if t.isEmpty then .error "LLM 返回了空响应"
  else
    let t2 := trimL (stripFenceL t)
    if t2.isEmpty then .error "清理后LLM响应为空"
    else .ok (String.mk t2)

/-- Value of a digit run, for the JSON and expression tokenizers. -/
def digitsToNat (ds : List Char) : Nat :=
  ds.foldl (fun acc c => 10 * acc + (c.toNat - '0'.toNat)) 0

/-- Skip JSON whitespace. -/
def jsonWs (s : List Char) : List Char := s.dropWhile Char.isWhitespace

/-- Parse a JSON string body after the opening quote (escape sequences are
not interpreted; the agent's prompts ask the model for plain JSON and the
claims never exercise escapes). -/
def parseJStr (s : List Char) : Except String (PyVal × List Char) :=
  let content := s.takeWhile (fun c => c ≠ '"')
  match s.drop content.length with
  | '"' :: r => .ok (.vstr (String.mk content), r)
  | _ => .error "json: unterminated string"

/-- Parse a JSON integer (floats are outside the model and fail). -/
def parseJNum (s : List Char) : Except String (PyVal × List Char) :=
  match s with
  | '-' :: r =>
    let ds := r.takeWhile Char.isDigit
    if ds.isEmpty then .error "json: invalid number"
    else .ok (.vint (-(digitsToNat ds : Int)), r.drop ds.length)
  | _ =>
    let ds := s.takeWhile Char.isDigit
    if ds.isEmpty then .error "json: invalid number"
    else .ok (.vint (digitsToNat ds), s.drop ds.length)

mutual

/-- Fueled recursive-descent parser for a JSON value, modelling the
standard-library `json.loads` on the subset the planner exchanges. -/
def parseJVal : Nat → List Char → Except String (PyVal × List Char)
  | 0, _ => .error "json: fuel exhausted"
  | fuel + 1, s =>
    match jsonWs s with
    | [] => .error "json: unexpected end of input"
    | c :: rest =>
      if c == 'n' then
        if "ull".toList.isPrefixOf rest then .ok (.vnone, rest.drop 3)
        else .error "json: invalid"
      else if c == 't' then
        if "rue".toList.isPrefixOf rest then .ok (.vbool true, rest.drop 3)
        else .error "json: invalid"
      else if c == 'f' then
        if "alse".toList.isPrefixOf rest then .ok (.vbool false, rest.drop 4)
        else .error "json: invalid"
      else if c == '"' then parseJStr rest
      else if c == '-' || c.isDigit then parseJNum (c :: rest)
      else if c == '[' then
        match jsonWs rest with
        | ']' :: r => .ok (.varr [], r)
        | r => do
          let (vs, r') ← parseJArrItems fuel r
          .ok (.varr vs, r')
      else if c == '\x7b' then
        match jsonWs rest with
        | '\x7d' :: r => .ok (.vdict [], r)
        | r => do
          let (fs, r') ← parseJObjItems fuel r
          .ok (.vdict fs, r')
      else .error "json: invalid"

/-- Comma-separated JSON array items up to the closing bracket. -/
def parseJArrItems : Nat → List Char → Except String (List PyVal × List Char)
  | 0, _ => .error "json: fuel exhausted"
  | fuel + 1, s => do
    let (v, s1) ← parseJVal fuel s
    match jsonWs s1 with
    | ']' :: r => .ok ([v], r)
    | ',' :: r => do
      let (vs, s2) ← parseJArrItems fuel r
      .ok (v :: vs, s2)
    | _ => .error "json: expected comma or close bracket"

/-- Comma-separated JSON object members up to the closing brace. -/
def parseJObjItems : Nat → List Char → Except String (List (String × PyVal) × List Char)
  | 0, _ => .error "json: fuel exhausted"
  | fuel + 1, s =>
    match jsonWs s with
    | '"' :: r => do
      let (k, s1) ← parseJStr r
      match k, jsonWs s1 with
      | .vstr key, ':' :: s2 => do
        let (v, s3) ← parseJVal fuel s2
        match jsonWs s3 with
        | '\x7d' :: r2 => .ok ([(key, v)], r2)
        | ',' :: r2 => do
          let (fs, s4) ← parseJObjItems fuel r2
          .ok ((key, v) :: fs, s4)
        | _ => .error "json: expected comma or close brace"
      | _, _ => .error "json: expected colon"
    | _ => .error "json: expected object key"

end

/-- Executable model of `json.loads`: parse one JSON value and require the
remaining input to be whitespace. -/
def jsonParseModel (s : String) : Except String PyVal := do
  let (v, rest) ← parseJVal (s.length + 1) s.toList
  if (jsonWs rest).isEmpty then .ok v else .error "json: extra data"

/-- Tokens of the arithmetic-expression subset evaluated by the math tool. -/
inductive MTok : Type where
  | tInt : Int → MTok
  | tName : String → MTok
  | tStr : String → MTok
  | tPlus : MTok
  | tStar : MTok
  | tLParen : MTok
  | tRParen : MTok
  deriving DecidableEq

/-- Identifier-start character of a Python name. -/
def isNameStart (c : Char) : Bool := c.isAlpha || c == '_'

/-- Identifier-continuation character of a Python name. -/
def isNameChar (c : Char) : Bool := c.isAlpha || c.isDigit || c == '_'

/-- Fueled tokenizer for the arithmetic-expression subset: integer
literals, names, single- or double-quoted string literals, `+`, `*` and
parentheses.  Any other character is a syntax error, modelling the
`SyntaxError` Python's `eval` raises on input outside the subset. -/
def mathTokenize : Nat → List Char → Except String (List MTok)
  | 0, _ => .error "tokenize: fuel exhausted"
  | _, [] => .ok []
  | fuel + 1, c :: rest =>
    if c.isWhitespace then mathTokenize fuel rest
    else if c == '+' then do
      let ts ← mathTokenize fuel rest
      .ok (.tPlus :: ts)
    else if c == '*' then do
      let ts ← mathTokenize fuel rest
      .ok (.tStar :: ts)
    else if c == '(' then do
      let ts ← mathTokenize fuel rest
      .ok (.tLParen :: ts)
    else if c == ')' then do
      let ts ← mathTokenize fuel rest
      .ok (.tRParen :: ts)
    else if c.isDigit then
      let ds := (c :: rest).takeWhile Char.isDigit
      do
        let ts ← mathTokenize fuel ((c :: rest).drop ds.length)
        .ok (.tInt (digitsToNat ds) :: ts)
    else if isNameStart c then
      let nm := (c :: rest).takeWhile isNameChar
      do
        let ts ← mathTokenize fuel ((c :: rest).drop nm.length)
        .ok (.tName (String.mk nm) :: ts)
    else if c == '"' || c == '\x27' then
      let content := rest.takeWhile (fun x => x ≠ c)
      match rest.drop content.length with
      | q :: r2 =>
        if q == c then do
          let ts ← mathTokenize fuel r2
          .ok (.tStr (String.mk content) :: ts)
        else .error "tokenize: unterminated string literal"
      | [] => .error "tokenize: unterminated string literal"
    else .error ("tokenize: invalid character " ++ String.mk [c])

/-- Abstract syntax of the arithmetic-expression subset the math tool
evaluates: integer and string literals, name references, `+`, `*`, and
single-argument calls. -/
inductive PyExpr : Type where
  | enum : Int → PyExpr
  | estr : String → PyExpr
  | ebool : Bool → PyExpr
  | enone : PyExpr
  | ename : String → PyExpr
  | eadd : PyExpr → PyExpr → PyExpr
  | emul : PyExpr → PyExpr → PyExpr
  | ecall : PyExpr → PyExpr → PyExpr
  deriving DecidableEq

/-- The names a parsed expression references. -/
def namesOf : PyExpr → List String
  | .enum _ => []
  | .estr _ => []
  | .ebool _ => []
  | .enone => []
  | .ename x => [x]
  | .eadd a b => namesOf a ++ namesOf b
  | .emul a b => namesOf a ++ namesOf b
  | .ecall f a => namesOf f ++ namesOf a

/-- The `allowed_names` mapping of `MathTool.execute` (tools.py lines
213-216), by key. -/
def allowedNames : List String :=
  ["abs", "round", "min", "max", "sum", "len", "int", "float"]

/-- An identifier in primary position: Python compiles the keywords
`True`, `False`, `None` and the name `__debug__` as *constants* — they
never reach a runtime name lookup — while every other identifier is a
genuine name reference. -/
def nameExpr (x : String) : PyExpr :=
  if x == "True" then .ebool true
  else if x == "False" then .ebool false
  else if x == "None" then .enone
  else if x == "__debug__" then .ebool true
  else .ename x

mutual

/-- Parse a sum (`+`-chain of terms), lowest precedence. -/
def parseSum : Nat → List MTok → Except String (PyExpr × List MTok)
  | 0, _ => .error "parse: fuel exhausted"
  | fuel + 1, ts => do
    let (a, ts1) ← parseTerm fuel ts
    parseSumRest fuel a ts1

/-- Left-associated continuation of a sum. -/
def parseSumRest : Nat → PyExpr → List MTok → Except String (PyExpr × List MTok)
  | 0, _, _ => .error "parse: fuel exhausted"
  | fuel + 1, a, ts =>
    match ts with
    | .tPlus :: r => do
      let (b, ts1) ← parseTerm fuel r
      parseSumRest fuel (.eadd a b) ts1
    | _ => .ok (a, ts)

/-- Parse a term (`*`-chain of primaries). -/
def parseTerm : Nat → List MTok → Except String (PyExpr × List MTok)
  | 0, _ => .error "parse: fuel exhausted"
  | fuel + 1, ts => do
    let (a, ts1) ← parsePrimary fuel ts
    parseTermRest fuel a ts1

/-- Left-associated continuation of a term. -/
def parseTermRest : Nat → PyExpr → List MTok → Except String (PyExpr × List MTok)
  | 0, _, _ => .error "parse: fuel exhausted"
  | fuel + 1, a, ts =>
    match ts with
    | .tStar :: r => do
      let (b, ts1) ← parsePrimary fuel r
      parseTermRest fuel (.emul a b) ts1
    | _ => .ok (a, ts)

/-- Parse a primary: literal, name, single-argument call, or
parenthesized expression. -/
def parsePrimary : Nat → List MTok → Except String (PyExpr × List MTok)
  | 0, _ => .error "parse: fuel exhausted"
  | fuel + 1, ts =>
    match ts with
    | .tInt n :: r => .ok (.enum n, r)
    | .tStr s :: r => .ok (.estr s, r)
    | .tName x :: .tLParen :: r => do
      let (arg, ts1) ← parseSum fuel r
      match ts1 with
      | .tRParen :: r2 => .ok (.ecall (nameExpr x) arg, r2)
      | _ => .error "parse: expected close paren"
    | .tName x :: r => .ok (nameExpr x, r)
    | .tLParen :: r => do
      let (e, ts1) ← parseSum fuel r
      match ts1 with
      | .tRParen :: r2 => .ok (e, r2)
      | _ => .error "parse: expected close paren"
    | _ => .error "parse: invalid syntax"

end

/-- Parse a whole expression string of the arithmetic subset. -/
def mathParse (s : String) : Except String PyExpr := do
  let ts ← mathTokenize (s.length + 1) s.toList
  let (e, rest) ← parseSum (4 * ts.length + 4) ts
  if rest.isEmpty then .ok e else .error "parse: invalid syntax"

/-- The numeric view Python's arithmetic takes of a value: `bool` is an
`int` subclass, so `True` counts as 1 and `False` as 0; other values have
no numeric view and make the operator raise `TypeError`. -/
def pyArithInt : PyVal → Option Int
  | .vint n => some n
  | .vbool b => some (if b then 1 else 0)
  | _ => none

/-- Python string repetition `s * n` (non-positive counts give the empty
string). -/
def repeatPyStr (s : String) (n : Int) : String :=
  String.join (List.replicate n.toNat s)

/-- Application of an allow-listed builtin, for the cases meaningful on
model values; anything else is a `TypeError`-style evaluation error. -/
def applyBuiltin : PyVal → PyVal → Except String PyVal
  | .vbuiltin "abs", .vint n => .ok (.vint (if n < 0 then -n else n))
  | .vbuiltin "len", .vstr s => .ok (.vint (s.length : Int))
  | .vbuiltin "len", .varr xs => .ok (.vint (xs.length : Int))
  | .vbuiltin "int", .vint n => .ok (.vint n)
  | .vbuiltin _, _ => .error "call unsupported in arithmetic model"
  | _, _ => .error "object is not callable"

/-- Evaluator modelling Python's `eval(expression, dict(__builtins__ = dict()), allowed_names)`
(tools.py line 221) on the arithmetic subset: a name resolves through the
locals `allowed_names` and then the globals dict, whose only entry is
`__builtins__` bound to the emptied dict; any other name is a
`NameError`.  The keyword constants never reach this lookup (see
`nameExpr`). -/
def evalPyExpr : PyExpr → Except String PyVal
  | .enum n => .ok (.vint n)
  | .estr s => .ok (.vstr s)
  | .ebool b => .ok (.vbool b)
  | .enone => .ok .vnone
  | .ename x =>
    if x ∈ allowedNames then .ok (.vbuiltin x)
    else if x == "__builtins__" then .ok (.vdict [])
    else .error ("name \x27" ++ x ++ "\x27 is not defined")
  | .eadd a b =>
    match evalPyExpr a with
    | .error e => .error e
    | .ok va =>
      match evalPyExpr b with
      | .error e => .error e
      | .ok vb =>
        match pyArithInt va, pyArithInt vb with
        | some m, some n => .ok (.vint (m + n))
        | _, _ =>
          match va, vb with
          | .vstr s, .vstr t => .ok (.vstr (s ++ t))
          | _, _ => .error "unsupported operand type(s) for +"
  | .emul a b =>
    match evalPyExpr a with
    | .error e => .error e
    | .ok va =>
      match evalPyExpr b with
      | .error e => .error e
      | .ok vb =>
        match pyArithInt va, pyArithInt vb with
        | some m, some n => .ok (.vint (m * n))
        | _, _ =>
          match va, pyArithInt vb with
          | .vstr s, some n => .ok (.vstr (repeatPyStr s n))
          | _, _ =>
            match pyArithInt va, vb with
            | some n, .vstr s => .ok (.vstr (repeatPyStr s n))
            | _, _ => .error "unsupported operand type(s) for *"
  | .ecall f a =>
    match evalPyExpr f with
    | .error e => .error e
    | .ok vf =>
      match evalPyExpr a with
      | .error e => .error e
      | .ok va => applyBuiltin vf va

/-- The parse-and-evaluate core of `MathTool.execute`: Python's single
`eval` call, whose raised exceptions (syntax errors, name errors, type
errors) surface as `.error`. -/
def mathEvalResult (expression : String) : Except String PyVal :=
  match mathParse expression with
  | .error e => .error e
  | .ok ast => evalPyExpr ast

/-- Outcome dictionary of `MathTool.execute` for a given (already
sanitized) expression text and evaluation result; key order follows the
source. -/
def mathOutcomeDict (expression : String) (r : Except String PyVal) : PyDict :=
  match r with
  | .ok v =>
    [("success", .vbool true), ("expression", .vstr expression), ("result", v)]
  | .error e =>
    [("success", .vbool false), ("error", .vstr e), ("expression", .vstr expression)]

/-- `MathTool.execute` (tools.py lines 209-233): sanitize the expression by
deleting the substrings `eval` and `exec`, evaluate the result, and return
a success dictionary echoing the (sanitized) expression, or a failure
dictionary with the exception message. -/
def mathToolExecute (expression : String) : PyDict :=
  let expression := sanitizeExpr expression
  mathOutcomeDict expression (mathEvalResult expression)

/-- The names referenced by the expression the math tool actually
evaluates: those of the parse of the sanitized input (none if the
sanitized input does not parse). -/
def mathReferencedNames (s : String) : List String :=
  match mathParse (sanitizeExpr s) with
  | .ok e => namesOf e
  | .error _ => []

/-- In-memory model of the filesystem the file tool acts on: an
association list from path to content, newest binding first. -/
abbrev FileSystem := List (String × String)

/-- Content of a path, if it exists. -/
def fsRead (fs : FileSystem) (p : String) : Option String :=
  (fs.find? (fun e => e.1 == p)).map (fun e => e.2)

/-- Create or overwrite a path. -/
def fsWrite (fs : FileSystem) (p c : String) : FileSystem :=
  (p, c) :: fs

/-- `FileTool.execute` (tools.py lines 96-143) over the filesystem model:
`read` returns the content or an `IOError`-style failure, `write` requires
content and stores it, `exists` reports presence, and any other action is
an unsupported-operation failure.  Key order follows the source. -/
def fileToolExecute (action filePath : String) (content : Option String)
    (fs : FileSystem) : PyDict × FileSystem :=
  if action == "read" then
    match fsRead fs filePath with
    | some c =>
      ([("success", .vbool true), ("action", .vstr action),
        ("file_path", .vstr filePath), ("content", .vstr c)], fs)
    | none =>
      ([("success", .vbool false),
        ("error", .vstr ("[Errno 2] No such file or directory: \x27" ++ filePath ++ "\x27")),
        ("action", .vstr action), ("file_path", .vstr filePath)], fs)
  else if action == "write" then
    match content with
    | none =>
      ([("success", .vbool false), ("error", .vstr "写入操作需要提供内容"),
        ("action", .vstr action), ("file_path", .vstr filePath)], fs)
    | some c =>
      ([("success", .vbool true), ("action", .vstr action),
        ("file_path", .vstr filePath), ("message", .vstr "文件写入成功")],
       fsWrite fs filePath c)
  else if action == "exists" then
    ([("success", .vbool true), ("action", .vstr action),
      ("file_path", .vstr filePath),
      ("exists", .vbool (fsRead fs filePath).isSome)], fs)
  else
    ([("success", .vbool false), ("error", .vstr ("不支持的操作: " ++ action))], fs)

/-- Static catalog data of one registered tool: name, description and the
parameter descriptions of `get_parameters_info`. -/
structure ToolInfo where
  name : String
  description : String
  params : List (String × String)

/-- The four tools registered by `ToolManager.__init__` (tools.py lines
244-250), with the name/description/parameter texts from their classes. -/
def toolInfos : List ToolInfo :=
  [⟨"terminal", "执行终端命令",
    [("command", "要执行的命令"), ("cwd", "工作目录（可选）")]⟩,
   ⟨"file", "文件读写操作",
    [("action", "操作类型（read/write/exists）"), ("file_path", "文件路径"),
     ("content", "文件内容（write操作时需要）")]⟩,
   ⟨"web", "网络请求操作",
    [("method", "HTTP方法（get/post）"), ("url", "请求URL"),
     ("data", "请求数据（可选）"), ("headers", "请求头（可选）")]⟩,
   ⟨"math", "数学计算操作", [("expression", "数学表达式")]⟩]

/-- The registered tool names, i.e. the keys of `ToolManager.tools`. -/
def registeredToolNames : List String := toolInfos.map (fun t => t.name)

/-- `Tool.get_full_description` (tools.py lines 23-33). -/
def fullDescription (t : ToolInfo) : String :=
  if t.params.isEmpty then "- " ++ t.name ++ ": " ++ t.description
  else
    "- " ++ t.name ++ ": " ++ t.description ++ "\n" ++
      String.intercalate "\n" (t.params.map (fun p => "  - " ++ p.1 ++ ": " ++ p.2))

/-- `ToolManager.get_tools_description` (tools.py lines 263-268). -/
def getToolsDescription : String :=
  String.intercalate "\n" (toolInfos.map fullDescription)

/-- Oracle for the bodies of the four registered tools: from tool name and
keyword arguments to an outcome dictionary, `.error` modelling a raised
exception. -/
abbrev ToolBehavior := String → PyDict → Except String PyDict

/-- The failure dictionary `ToolManager.execute_tool` returns for an
unknown tool name (tools.py lines 275-279). -/
def unknownToolDict (toolName : String) : PyDict :=
  [("success", .vbool false), ("error", .vstr ("工具不存在: " ++ toolName))]

/-- `ToolManager.execute_tool` (tools.py lines 270-279): dispatch a string
tool name to the registered tool's body, or return the unknown-tool
failure dictionary without raising. -/
def executeTool (behavior : ToolBehavior) (toolName : String) (kwargs : PyDict) :
    Except String PyDict :=
  if toolName ∈ registeredToolNames then behavior toolName kwargs
  else .ok (unknownToolDict toolName)

/-- The call `self.tool_manager.execute_tool(step.tool_name, **step.parameters)`
(agent.py line 160) for arbitrary planner-produced values: unpacking `**`
of a non-dict raises; a keyword in the mapping that collides with one of
`execute_tool`'s own parameters (`self`, bound by the method call, or the
positional `tool_name`) makes the call itself raise `TypeError` before
the body runs; otherwise a non-string hashable name misses every registry
key and yields the unknown-tool dictionary, and an unhashable name makes
the registry lookup raise. -/
def invokeToolValue (behavior : ToolBehavior) (name params : PyVal) :
    Except String PyDict :=
  match params with
  | .vdict kwargs =>
    match kwargs.find? (fun p => p.1 == "self" || p.1 == "tool_name") with
    | some p =>
      .error ("execute_tool() got multiple values for argument \x27" ++ p.1 ++ "\x27")
    | none =>
      match name with
      | .vstr s => executeTool behavior s kwargs
      | .varr _ => .error "unhashable type: \x27list\x27"
      | .vdict _ => .error "unhashable type: \x27dict\x27"
      | other => .ok (unknownToolDict (pyStr other))
  | _ => .error "argument after ** must be a mapping"

/-- One entry of the conversation history appended by
`AIAgent.add_message` (agent.py lines 50-56); the ISO timestamp is
modelled by the clock value at creation. -/
structure TranscriptEntry where
  role : String
  content : String
  timestamp : Nat
  deriving DecidableEq

/-- Mutable state of the `AIAgent` object relevant to the claims: the
conversation history plus the model clock for `datetime.now()`. -/
structure AgentState where
  history : List TranscriptEntry
  clock : Nat
  deriving DecidableEq

/-- `AIAgent.add_message`: append a role-tagged entry stamped with the
current clock. -/
def addMessage (role content : String) (st : AgentState) : AgentState :=
  { history := st.history ++ [{ role := role, content := content, timestamp := st.clock }],
    clock := st.clock + 1 }

/-- A `TaskStep` object (agent.py lines 14-35).  `step_id`, `description`,
`tool_name` and `parameters` hold whatever values the decoded JSON
supplied; `result` and `error` are `vnone` until written. -/
structure TaskStep where
  step_id : PyVal
  description : PyVal
  tool_name : PyVal
  parameters : PyVal
  status : String
  result : PyVal
  error : PyVal

/-- `TaskStep.__init__`: status starts `pending`, and
`parameters or` replaces a falsy parameters value with the empty dict. -/
def mkTaskStep (stepId description toolName parameters : PyVal) : TaskStep :=
  { step_id := stepId, description := description, tool_name := toolName,
    parameters := if pyTruthy parameters then parameters else .vdict [],
    status := "pending", result := .vnone, error := .vnone }

/-- `TaskStep.to_dict` (agent.py lines 26-35). -/
def TaskStep.toDict (s : TaskStep) : PyVal :=
  .vdict [("step_id", s.step_id), ("description", s.description),
          ("tool_name", s.tool_name), ("parameters", s.parameters),
          ("status", .vstr s.status), ("result", s.result), ("error", s.error)]

/-- Oracle for `LLMClient.chat_completion`: from the role-tagged message
list to the reply text, `.error` modelling a raised transport error. -/
abbrev ChatOracle := List (String × String) → Except String String

/-- Oracle type for `json.loads`. -/
abbrev JsonLoads := String → Except String PyVal

/-- The planning system prompt of `plan_task` (agent.py lines 63-89) after
`str.format` substitutes the tool catalog. -/
def planSystemPrompt : String :=
  "你是一个专业的任务规划专家。请将用户的任务拆解为具体的执行步骤。\n\n每个步骤应该包含：\n1. 步骤描述\n2. 需要使用的工具（如果有）\n3. 工具参数（如果有）\n\n可用的工具及参数：\n"
  ++ getToolsDescription ++
  "\n\n请以JSON格式返回步骤列表，格式如下：\n[\n    \x7b\n        \"step_id\": 1,\n        \"description\": \"步骤描述\",\n        \"tool_name\": \"工具名称（可选）\",\n        \"parameters\": \x7b\"参数名\": \"参数值\"\x7d\n    \x7d\n]\n\n重要要求：\n1. 必须返回完整的JSON格式，不要截断\n2. 不要包含任何额外的文本说明\n3. 确保JSON语法正确\n4. 每个步骤的description不能为空\n5. 如果使用工具，tool_name必须与可用工具列表中的name匹配\n6. 参数名称必须与工具定义完全一致"

/-- The two messages `plan_task` sends to the backend (agent.py lines 91-94). -/
def planMessages (task : String) : List (String × String) :=
  [("system", planSystemPrompt), ("user", "请为以下任务制定执行计划：" ++ task)]

/-- Subscripting `step_data[k]` (agent.py lines 137-138) on a decoded
JSON element: key lookup on a dict (`KeyError` if absent), a type error
otherwise. -/
def getItem (v : PyVal) (k : String) : Except String PyVal :=
  match v with
  | .vdict fs =>
    match fs.find? (fun p => p.1 == k) with
    | some p => .ok p.2
    | none => .error ("KeyError: \x27" ++ k ++ "\x27")
  | .vstr _ => .error "string indices must be integers"
  | _ => .error "object is not subscriptable"

/-- `step_data.get(k, dflt)` (agent.py lines 139-140); only reached when
`step_data` is a dict, since subscripting ran first. -/
def dictGetDefault (v : PyVal) (k : String) (dflt : PyVal) : PyVal :=
  match v with
  | .vdict fs =>
    match fs.find? (fun p => p.1 == k) with
    | some p => p.2
    | none => dflt
  | _ => dflt

/-- Python iteration `for step_data in steps_data` over a decoded JSON
value: lists yield elements, dicts yield their keys, strings yield
one-character strings, anything else raises `TypeError`. -/
def pyIterate (v : PyVal) : Except String (List PyVal) :=
  match v with
  | .varr xs => .ok xs
  | .vdict fs => .ok (fs.map (fun p => .vstr p.1))
  | .vstr s => .ok (s.toList.map (fun c => .vstr (String.mk [c])))
  | _ => .error "object is not iterable"

/-- The step-construction loop body (agent.py lines 135-142): require
`step_id` and `description`, default `tool_name` and `parameters`. -/
def stepFromData (d : PyVal) : Except String TaskStep := do
  let sid ← getItem d "step_id"
  let desc ← getItem d "description"
  let toolName := dictGetDefault d "tool_name" .vnone
  let params := dictGetDefault d "parameters" (.vdict [])
  .ok (mkTaskStep sid desc toolName params)

/-- The whole step-construction loop. -/
def buildSteps (xs : List PyVal) : Except String (List TaskStep) :=
  xs.mapM stepFromData

/-- The single fallback step `plan_task` returns on any planning failure
(agent.py line 150): `TaskStep(1, f"执行任务: " + task)`. -/
def fallbackStep (task : String) : TaskStep :=
  mkTaskStep (.vint 1) (.vstr ("执行任务: " ++ task)) .vnone .vnone

/-- `AIAgent.plan_task` (agent.py lines 58-150).  The `try` body is the
nested match cascade; every `.error` outcome falls to the fallback step.
The raw backend reply is appended to the history as an `assistant` entry
before any cleaning or parsing, so that entry survives parse failures. -/
def planTask (chat : ChatOracle) (jsonLoads : JsonLoads) (task : String)
    (st : AgentState) : List TaskStep × AgentState :=
  match chat (planMessages task) with
  | .error _ => ([fallbackStep task], st)
  | .ok response =>
    let st1 := addMessage "assistant" response st
    match cleanLLMResponse response with
    | .error _ => ([fallbackStep task], st1)
    | .ok cleaned =>
      match jsonLoads cleaned with
      | .error _ => ([fallbackStep task], st1)
      | .ok data =>
        match pyIterate data >>= buildSteps with
        | .error _ => ([fallbackStep task], st1)
        | .ok steps => (steps, st1)

/-- The `try` body of `AIAgent.execute_step` (agent.py lines 157-179),
on a step whose status is already `running`: a truthy tool name is
dispatched through the tool manager and the outcome's truthy `success`
decides `completed`/`failed`; a falsy tool name is a pure-text step that
completes immediately. -/
def executeStepBody (behavior : ToolBehavior) (step : TaskStep) :
    Except String (TaskStep × Bool) :=
  if pyTruthy step.tool_name then
    match invokeToolValue behavior step.tool_name step.parameters with
    | .error e => .error e
    | .ok outcome =>
    if pyTruthy (dgetD outcome "success" (.vbool false)) then
      .ok ({ step with status := "completed", result := .vdict outcome }, true)
    else
      .ok ({ step with status := "failed", result := .vdict outcome,
                       error := dgetD outcome "error" (.vstr "未知错误") }, false)
  else
    .ok ({ step with status := "completed",
                     result := .vdict [("message", .vstr "步骤完成")] }, true)

/-- `AIAgent.execute_step` (agent.py lines 152-185): set status `running`,
run the body, and convert any raised exception into status `failed` with
the exception message; the boolean reports completion. -/
def executeStep (behavior : ToolBehavior) (step : TaskStep) : TaskStep × Bool :=
  let running := { step with status := "running" }
  match executeStepBody behavior running with
  | .ok r => r
  | .error e => ({ running with status := "failed", error := .vstr e }, false)

/-- The step loop of `execute_task` (agent.py lines 204-210): execute every
step in order, never short-circuiting, tallying successes and failures. -/
def runSteps (behavior : ToolBehavior) : List TaskStep → List TaskStep × Nat × Nat
  | [] => ([], 0, 0)
  | s :: rest =>
    let r := executeStep behavior s
    let t := runSteps behavior rest
    (r.1 :: t.1, (if r.2 then t.2.1 + 1 else t.2.1), (if r.2 then t.2.2 else t.2.2 + 1))

/-- The per-step lines of the summarization prompt (agent.py lines
242-245): an emoji marker chosen by `status == "completed"` plus the
step id and description. -/
def summaryStepsText (steps : List TaskStep) : String :=
  String.intercalate "\n" (steps.map (fun s =>
    (if s.status == "completed" then "✅" else "❌")
      ++ " 步骤" ++ pyStr s.step_id ++ ": " ++ pyStr s.description))

/-- The two messages `generate_summary` sends to the backend (agent.py
lines 240-261). -/
def summaryMessages (task : String) (steps : List TaskStep) : List (String × String) :=
  [("system", "你是一个任务总结专家。请根据任务执行情况生成简洁明了的总结报告。"),
   ("user", "任务: " ++ task ++ "\n\n执行步骤:\n" ++ summaryStepsText steps ++
            "\n\n请生成一个简洁的任务执行总结，包括：\n1. 任务完成情况\n2. 主要成果\n3. 遇到的问题（如果有）\n4. 建议（如果有）")]

/-- The local fallback summary of `generate_summary` (agent.py line 269),
computed from the completed/failed counts. -/
def summaryFallback (steps : List TaskStep) : String :=
  "任务执行完成。成功步骤: " ++ toString (steps.countP (fun s => s.status == "completed")) ++
  ", 失败步骤: " ++ toString (steps.countP (fun s => s.status == "failed"))

/-- `AIAgent.generate_summary` (agent.py lines 236-269): ask the backend,
and on any raised error fall back to the local tally summary. -/
def generateSummary (chat : ChatOracle) (task : String) (steps : List TaskStep) : String :=
  match chat (summaryMessages task steps) with
  | .ok summary => summary
  | .error _ => summaryFallback steps

/-- The tally text appended to the history at the end of `execute_task`
(agent.py line 232). -/
def tallyMessage (successCount failCount : Nat) : String :=
  "任务执行完成。成功步骤: " ++ toString successCount ++
  ", 失败步骤: " ++ toString failCount

/-- `AIAgent.execute_task` (agent.py lines 187-234): append the task as a
`user` entry, plan, execute every step, summarize, assemble the result
dictionary (its `timestamp` is a fresh clock tick) and append the tally
as an `assistant` entry.  The function is total for every oracle
behavior, modelling that `execute_task` never raises. -/
def executeTask (chat : ChatOracle) (behavior : ToolBehavior)
    (jsonLoads : JsonLoads) (task : String) (st : AgentState) :
    PyVal × AgentState :=
  let st1 := addMessage "user" task st
  let planned := planTask chat jsonLoads task st1
  let t := runSteps behavior planned.1
  let summary := generateSummary chat task t.1
  let result : PyVal := .vdict
    [("task", .vstr task),
     ("steps", .varr (t.1.map TaskStep.toDict)),
     ("summary", .vstr summary),
     ("successful_steps", .vint (t.2.1 : Int)),
     ("failed_steps", .vint (t.2.2 : Int)),
     ("total_steps", .vint (planned.1.length : Int)),
     ("timestamp", .vint (planned.2.clock : Int))]
  let st3 : AgentState := { planned.2 with clock := planned.2.clock + 1 }
  let st4 := addMessage "assistant" (tallyMessage t.2.1 t.2.2) st3
  (result, st4)

/-- Helper: a successful run of the `execute_step` body leaves the step in
a terminal state and does not touch its identity fields. -/
theorem executeStepBody_ok_spec (b : ToolBehavior) (s : TaskStep) (r : TaskStep × Bool)
    (h : executeStepBody b s = .ok r) :
    (r.1.status = "completed" ∨ r.1.status = "failed") ∧
    r.1.step_id = s.step_id ∧ r.1.description = s.description := by
  unfold executeStepBody at h
  split at h
  · split at h
    · exact absurd h (by simp)
    · split at h
      · cases h
        exact ⟨Or.inl rfl, rfl, rfl⟩
      · cases h
        exact ⟨Or.inr rfl, rfl, rfl⟩
  · cases h
    exact ⟨Or.inl rfl, rfl, rfl⟩

/-- Helper: `execute_step` always leaves the step in a terminal state and
preserves its identity fields. -/
theorem executeStep_spec (b : ToolBehavior) (s : TaskStep) :
    ((executeStep b s).1.status = "completed" ∨ (executeStep b s).1.status = "failed") ∧
    (executeStep b s).1.step_id = s.step_id ∧
    (executeStep b s).1.description = s.description := by
  cases h : executeStepBody b { s with status := "running" } with
  | ok r =>
    have hs := executeStepBody_ok_spec b { s with status := "running" } r h
    simp only [executeStep, h]
    exact ⟨hs.1, hs.2.1, hs.2.2⟩
  | error e =>
    simp [executeStep, h]

/-- Helper: the step loop executes exactly the planned steps, in order. -/
theorem runSteps_fst (b : ToolBehavior) (steps : List TaskStep) :
    (runSteps b steps).1 = steps.map (fun s => (executeStep b s).1) := by
  induction steps with
  | nil => rfl
  | cons s rest ih => simp [runSteps, ih]

/-- Helper: the success and failure tallies of the step loop sum to the
number of steps. -/
theorem runSteps_count (b : ToolBehavior) (steps : List TaskStep) :
    (runSteps b steps).2.1 + (runSteps b steps).2.2 = steps.length := by
  induction steps with
  | nil => rfl
  | cons s rest ih =>
    simp only [runSteps, List.length_cons]
    split <;> omega

/-- Helper: deleting occurrences never lengthens the text, for any fuel. -/
theorem replaceDelGo_length_le (p : List Char) :
    ∀ (fuel : Nat) (s : List Char), (replaceDelGo p fuel s).length ≤ s.length := by
  intro fuel
  induction fuel with
  | zero => intro s; cases s <;> exact Nat.le_refl _
  | succ fuel ih =>
    intro s
    cases s with
    | nil => exact Nat.le_refl _
    | cons c rest =>
      rw [replaceDelGo]
      split
      · rename_i hcond
        refine (ih _).trans ?_
        simp only [List.length_drop, List.length_cons]
        omega
      · simp only [List.length_cons]
        exact Nat.succ_le_succ (ih rest)

/-- Helper: deleting occurrences never lengthens the text. -/
theorem replaceDel_length_le (p s : List Char) :
    (replaceDel p s).length ≤ s.length :=
  replaceDelGo_length_le p s.length s

/-- Helper: deletion either leaves the text unchanged or strictly
shortens it, for any fuel. -/
theorem replaceDelGo_eq_or_length_lt (p : List Char) :
    ∀ (fuel : Nat) (s : List Char),
      replaceDelGo p fuel s = s ∨ (replaceDelGo p fuel s).length < s.length := by
  intro fuel
  induction fuel with
  | zero => intro s; cases s <;> exact Or.inl rfl
  | succ fuel ih =>
    intro s
    cases s with
    | nil => exact Or.inl rfl
    | cons c rest =>
      rw [replaceDelGo]
      split
      · rename_i hcond
        right
        have hp : 0 < p.length := List.length_pos.mpr hcond.1
        have hle := replaceDelGo_length_le p fuel (List.drop p.length (c :: rest))
        simp only [List.length_drop, List.length_cons] at hle ⊢
        omega
      · rcases ih rest with he | hl
        · left; rw [he]
        · right; simp only [List.length_cons]; omega

/-- Helper: deletion either leaves the text unchanged or strictly
shortens it. -/
theorem replaceDel_eq_or_length_lt (p s : List Char) :
    replaceDel p s = s ∨ (replaceDel p s).length < s.length :=
  replaceDelGo_eq_or_length_lt p s.length s

/-- Helper: if the non-empty pattern occurs in the text and the fuel
covers the text, deletion strictly shortens it. -/
theorem replaceDelGo_infix_length_lt (p : List Char) (hp : p ≠ []) :
    ∀ (fuel : Nat) (s : List Char), s.length ≤ fuel → p <:+: s →
      (replaceDelGo p fuel s).length < s.length := by
  intro fuel
  induction fuel with
  | zero =>
    intro s hlen h
    have hs : s = [] := List.eq_nil_of_length_eq_zero (Nat.le_zero.mp hlen)
    subst hs
    exact absurd (List.infix_nil.mp h) hp
  | succ fuel ih =>
    intro s hlen h
    cases s with
    | nil => exact absurd (List.infix_nil.mp h) hp
    | cons c rest =>
      rw [replaceDelGo]
      split
      · have hplen : 0 < p.length := List.length_pos.mpr hp
        have hle := replaceDelGo_length_le p fuel (List.drop p.length (c :: rest))
        simp only [List.length_drop, List.length_cons] at hle ⊢
        omega
      · rename_i hcond
        obtain ⟨t, u, htu⟩ := h
        have hinf : p <:+: rest := by
          cases t with
          | nil =>
            exfalso
            apply hcond
            refine ⟨hp, List.isPrefixOf_iff_prefix.mpr ?_⟩
            exact ⟨u, by simpa using htu⟩
          | cons a t' =>
            have h2 : t' ++ p ++ u = rest := by
              have := htu
              simp only [List.cons_append, List.cons.injEq] at this
              exact this.2
            exact ⟨t', u, h2⟩
        have hlen2 : rest.length ≤ fuel := by
          simp only [List.length_cons] at hlen
          omega
        have := ih rest hlen2 hinf
        simp only [List.length_cons]
        omega

/-- Helper: if the non-empty pattern occurs in the text, deletion
strictly shortens it. -/
theorem replaceDel_infix_length_lt (p : List Char) (hp : p ≠ []) :
    ∀ s : List Char, p <:+: s → (replaceDel p s).length < s.length :=
  fun s h => replaceDelGo_infix_length_lt p hp s.length s (Nat.le_refl _) h

/-- Helper: a text containing `eval` or `exec` strictly shrinks under the
math tool's sanitization. -/
theorem sanitizeL_length_lt (s : List Char)
    (h : "eval".toList <:+: s ∨ "exec".toList <:+: s) :
    (sanitizeL s).length < s.length := by
  unfold sanitizeL
  rcases h with h | h
  · have h1 := replaceDel_infix_length_lt "eval".toList (by decide) s h
    have h2 := replaceDel_length_le "exec".toList (replaceDel "eval".toList s)
    omega
  · rcases replaceDel_eq_or_length_lt "eval".toList s with he | hl
    · rw [he]
      exact replaceDel_infix_length_lt "exec".toList (by decide) s h
    · have h2 := replaceDel_length_le "exec".toList (replaceDel "eval".toList s)
      omega

/-- Helper: sanitization changes every string containing `eval` or `exec`. -/
theorem sanitizeExpr_ne (s : String)
    (h : "eval".toList <:+: s.toList ∨ "exec".toList <:+: s.toList) :
    sanitizeExpr s ≠ s := by
  intro he
  have hdata : sanitizeL s.toList = s.toList := congrArg String.toList he
  have hlt := sanitizeL_length_lt s.toList h
  rw [hdata] at hlt
  omega

/-- Helper: a reply wrapped in a lowercase ```json fence is stripped to
its body. -/
theorem stripFenceL_json (s : List Char) :
    stripFenceL (fenceJson ++ s ++ fenceMark) = s := by
  have hpre : fenceJson.isPrefixOf (fenceJson ++ s ++ fenceMark) = true := by
    rw [List.isPrefixOf_iff_prefix, List.append_assoc]
    exact List.prefix_append _ _
  have hdrop : (fenceJson ++ s ++ fenceMark).drop 7 = s ++ fenceMark := by
    rw [List.append_assoc]
    have h7 : (7 : Nat) = fenceJson.length := by decide
    rw [h7, List.drop_left]
  have hsuf : fenceMark.isSuffixOf (s ++ fenceMark) = true := by
    rw [List.isSuffixOf_iff_suffix]
    exact List.suffix_append _ _
  have hlen : (s ++ fenceMark).length - 3 = s.length := by
    have h3 : fenceMark.length = 3 := by decide
    simp [List.length_append, h3]
  unfold stripFenceL
  simp only [hpre, if_true, hdrop, hsuf, hlen]
  exact List.take_left _ _

/-- Helper: a reply wrapped in an uppercase ```JSON fence keeps the
language tag after stripping: only the bare triple backtick is removed. -/
theorem stripFenceL_upper (s : List Char) :
    stripFenceL ("```JSON".toList ++ s ++ fenceMark) = "JSON".toList ++ s := by
  have hsplit : "```JSON".toList = fenceMark ++ "JSON".toList := by decide
  have hnpre : fenceJson.isPrefixOf ("```JSON".toList ++ s ++ fenceMark) = false := by
    rw [Bool.eq_false_iff]
    intro hc
    have hp := List.isPrefixOf_iff_prefix.mp hc
    rw [List.prefix_iff_eq_take] at hp
    have h7 : fenceJson.length = 7 := by decide
    have h7u : ("```JSON".toList).length = 7 := by decide
    rw [h7, List.append_assoc, ← h7u, List.take_left] at hp
    exact absurd hp (by decide)
  have hpre : fenceMark.isPrefixOf ("```JSON".toList ++ s ++ fenceMark) = true := by
    rw [List.isPrefixOf_iff_prefix, hsplit, List.append_assoc, List.append_assoc]
    exact List.prefix_append _ _
  have hdrop : ("```JSON".toList ++ s ++ fenceMark).drop 3 = "JSON".toList ++ s ++ fenceMark := by
    rw [hsplit, List.append_assoc, List.append_assoc]
    have h3 : (3 : Nat) = fenceMark.length := by decide
    rw [h3, List.drop_left, ← List.append_assoc]
  have hsuf : fenceMark.isSuffixOf ("JSON".toList ++ s ++ fenceMark) = true := by
    rw [List.isSuffixOf_iff_suffix, List.append_assoc]
    exact (List.suffix_append _ _).trans (List.suffix_append _ _)
  have hlen : ("JSON".toList ++ s ++ fenceMark).length - 3 = ("JSON".toList ++ s).length := by
    have h3 : fenceMark.length = 3 := by decide
    simp [List.length_append, h3]
  unfold stripFenceL
  simp only [hnpre, hpre, if_true, Bool.false_eq_true, if_false, hdrop, hsuf, hlen]
  rw [List.append_assoc, ← List.append_assoc]
  exact List.take_left _ _

/-- Helper: an expression that evaluates successfully references only
resolvable names — the strict evaluator resolves every name it contains,
and each resolution succeeds only through `allowed_names` or through the
sole global `__builtins__`. -/
theorem evalPyExpr_ok_names (e : PyExpr) :
    ∀ v, evalPyExpr e = .ok v →
      ∀ x ∈ namesOf e, x ∈ allowedNames ∨ x = "__builtins__" := by
  induction e with
  | enum n => intro v _ x hx; simp [namesOf] at hx
  | estr s => intro v _ x hx; simp [namesOf] at hx
  | ebool b => intro v _ x hx; simp [namesOf] at hx
  | enone => intro v _ x hx; simp [namesOf] at hx
  | ename y =>
    intro v h x hx
    simp only [namesOf, List.mem_singleton] at hx
    subst hx
    unfold evalPyExpr at h
    by_cases hy : x ∈ allowedNames
    · exact Or.inl hy
    · rw [if_neg hy] at h
      by_cases hb : x = "__builtins__"
      · exact Or.inr hb
      · rw [if_neg (by simpa using hb)] at h
        exact absurd h (by simp)
  | eadd a b iha ihb =>
    intro v h x hx
    unfold evalPyExpr at h
    simp only [namesOf, List.mem_append] at hx
    cases ha : evalPyExpr a with
    | error e1 => rw [ha] at h; exact absurd h (by simp)
    | ok va =>
      cases hb : evalPyExpr b with
      | error e2 => rw [ha, hb] at h; exact absurd h (by simp)
      | ok vb =>
        rcases hx with hx | hx
        · exact iha va ha x hx
        · exact ihb vb hb x hx
  | emul a b iha ihb =>
    intro v h x hx
    unfold evalPyExpr at h
    simp only [namesOf, List.mem_append] at hx
    cases ha : evalPyExpr a with
    | error e1 => rw [ha] at h; exact absurd h (by simp)
    | ok va =>
      cases hb : evalPyExpr b with
      | error e2 => rw [ha, hb] at h; exact absurd h (by simp)
      | ok vb =>
        rcases hx with hx | hx
        · exact iha va ha x hx
        · exact ihb vb hb x hx
  | ecall f a ihf iha =>
    intro v h x hx
    unfold evalPyExpr at h
    simp only [namesOf, List.mem_append] at hx
    cases hf : evalPyExpr f with
    | error e1 => rw [hf] at h; exact absurd h (by simp)
    | ok vf =>
      cases ha : evalPyExpr a with
      | error e2 => rw [hf, ha] at h; exact absurd h (by simp)
      | ok va =>
        rcases hx with hx | hx
        · exact ihf vf hf x hx
        · exact iha va ha x hx

/-- Helper: if the math tool's parse-and-evaluate core succeeds on a text,
every name that text's parse references is allow-listed or is the global
`__builtins__`. -/
theorem mathEvalResult_ok_names (t : String) (v : PyVal)
    (h : mathEvalResult t = .ok v) :
    ∀ x, x ∈ (match mathParse t with | .ok e => namesOf e | .error _ => ([] : List String)) →
      x ∈ allowedNames ∨ x = "__builtins__" := by
  intro x hx
  unfold mathEvalResult at h
  cases hp : mathParse t with
  | error e => rw [hp] at hx; simp at hx
  | ok ast =>
    rw [hp] at hx h
    simp only at hx
    exact evalPyExpr_ok_names ast v h x hx

/-- C6 counterexample: the input expression `evalabs` is a single name
outside the allow-list, yet the math tool succeeds on it, because the
sanitizer first rewrites the expression to the allow-listed name `abs`.
This refutes the claim that every expression referencing a name outside
the allow-list yields success false. -/
theorem math_tool_disallowed_name_can_succeed :
    mathParse "evalabs" = .ok (.ename "evalabs") ∧
    "evalabs" ∉ allowedNames ∧
    dget (mathToolExecute "evalabs") "success" = some (.vbool true) := by
  refine ⟨by rfl, by decide, by rfl⟩

/-- C6 (amended): the math tool returns success true with result 14 on
`2 + 3 * 4`; success false on `__import__('os')`; and success false on
every expression whose sanitized text parses to an expression referencing
a name outside the allow-list other than `__builtins__` (the sanitizer
runs before evaluation, so the allow-list applies to the sanitized text,
not the caller's input; and the keyword constants `True`/`False`/`None`
and `__debug__` are compiled as constants, never looked up, as the
`True + 1` conjuncts exhibit, while the global `__builtins__` resolves to
the emptied builtins dict). -/
theorem math_tool_eval_contract (s x : String)
    (hx : x ∈ mathReferencedNames s) (hno : x ∉ allowedNames)
    (hnb : x ≠ "__builtins__") :
    dget (mathToolExecute "2 + 3 * 4") "success" = some (.vbool true) ∧
    dget (mathToolExecute "2 + 3 * 4") "result" = some (.vint 14) ∧
    dget (mathToolExecute "True + 1") "success" = some (.vbool true) ∧
    dget (mathToolExecute "True + 1") "result" = some (.vint 2) ∧
    dget (mathToolExecute "__import__(\x27os\x27)") "success" = some (.vbool false) ∧
    dget (mathToolExecute s) "success" = some (.vbool false) := by
  refine ⟨by rfl, by rfl, by rfl, by rfl, by rfl, ?_⟩
  cases hr : mathEvalResult (sanitizeExpr s) with
  | error e =>
    simp only [mathToolExecute, hr, mathOutcomeDict]
    rfl
  | ok v =>
    exfalso
    unfold mathReferencedNames at hx
    rcases mathEvalResult_ok_names (sanitizeExpr s) v hr x hx with hall | hbuiltins
    · exact hno hall
    · exact hnb hbuiltins

/-- C6 witness: the amended theorem applied at the concrete input
`__import__('os')`, whose referenced name `__import__` is outside the
allow-list and is not `__builtins__`. -/
theorem math_tool_eval_contract_witness :
    dget (mathToolExecute "2 + 3 * 4") "success" = some (.vbool true) ∧
    dget (mathToolExecute "2 + 3 * 4") "result" = some (.vint 14) ∧
    dget (mathToolExecute "True + 1") "success" = some (.vbool true) ∧
    dget (mathToolExecute "True + 1") "result" = some (.vint 2) ∧
    dget (mathToolExecute "__import__(\x27os\x27)") "success" = some (.vbool false) ∧
    dget (mathToolExecute "__import__(\x27os\x27)") "success" = some (.vbool false) :=
  math_tool_eval_contract "__import__(\x27os\x27)" "__import__"
    (by decide) (by decide) (by decide)

/-- C9: the math tool deletes the substrings `eval` and `exec` from the
input before evaluation and echoes the sanitized text in the outcome's
`expression` field, so for every input containing either substring the
evaluated expression differs from the expression the caller supplied. -/
theorem math_tool_sanitizes_expression (s : String)
    (h : "eval".toList <:+: s.toList ∨ "exec".toList <:+: s.toList) :
    dget (mathToolExecute s) "expression" = some (.vstr (sanitizeExpr s)) ∧
    sanitizeExpr s ≠ s := by
  constructor
  · cases hr : mathEvalResult (sanitizeExpr s) with
    | error e => simp only [mathToolExecute, hr, mathOutcomeDict]; rfl
    | ok v => simp only [mathToolExecute, hr, mathOutcomeDict]; rfl
  · exact sanitizeExpr_ne s h

/-- C9 witness: the theorem applied at `len('evaluate')`, which contains
the substring `eval`; the tool in fact evaluates `len('uate')`. -/
theorem math_tool_sanitizes_expression_witness :
    dget (mathToolExecute "len(\x27evaluate\x27)") "expression" =
      some (.vstr (sanitizeExpr "len(\x27evaluate\x27)")) ∧
    sanitizeExpr "len(\x27evaluate\x27)" ≠ "len(\x27evaluate\x27)" :=
  math_tool_sanitizes_expression "len(\x27evaluate\x27)" (Or.inl (by decide))

/-- C7: whenever the backend call inside `generate_summary` raises, the
method returns (never raises) the deterministic one-line summary computed
locally from the number of completed and the number of failed steps. -/
theorem generate_summary_fallback (chat : ChatOracle) (task : String)
    (steps : List TaskStep) (e : String)
    (h : chat (summaryMessages task steps) = .error e) :
    generateSummary chat task steps =
      "任务执行完成。成功步骤: " ++ toString (steps.countP (fun s => s.status == "completed")) ++
      ", 失败步骤: " ++ toString (steps.countP (fun s => s.status == "failed")) := by
  unfold generateSummary
  rw [h]
  rfl

/-- C7 witness: a backend that always raises, on an empty step list. -/
theorem generate_summary_fallback_witness :
    generateSummary (fun _ => Except.error "连接超时") "演示任务" [] =
      "任务执行完成。成功步骤: 0, 失败步骤: 0" := by
  have h := generate_summary_fallback (fun _ => Except.error "连接超时") "演示任务" []
    "连接超时" rfl
  exact h.trans (by rfl)

/-- C8: on the filesystem model, a file-tool `write` of content `c`
succeeds and a subsequent `read` of the same path succeeds returning
exactly `c`; a `read` of a missing path fails with a non-empty error
message; an `exists` always succeeds and reports exactly whether the path
is present. -/
theorem file_tool_contract (fs : FileSystem) (p c q : String)
    (hq : fsRead fs q = none) :
    dget (fileToolExecute "write" p (some c) fs).1 "success" = some (.vbool true) ∧
    dget (fileToolExecute "read" p none (fileToolExecute "write" p (some c) fs).2).1
        "success" = some (.vbool true) ∧
    dget (fileToolExecute "read" p none (fileToolExecute "write" p (some c) fs).2).1
        "content" = some (.vstr c) ∧
    dget (fileToolExecute "read" q none fs).1 "success" = some (.vbool false) ∧
    (∃ msg : String, msg ≠ "" ∧
      dget (fileToolExecute "read" q none fs).1 "error" = some (.vstr msg)) ∧
    (∀ r : String,
      dget (fileToolExecute "exists" r none fs).1 "success" = some (.vbool true) ∧
      dget (fileToolExecute "exists" r none fs).1 "exists" =
        some (.vbool (fsRead fs r).isSome)) := by
  have hwrite : (fileToolExecute "write" p (some c) fs).2 = (p, c) :: fs := rfl
  have hread : fsRead ((p, c) :: fs) p = some c := by
    simp [fsRead, List.find?]
  refine ⟨rfl, ?_, ?_, ?_, ?_, fun r => ⟨rfl, rfl⟩⟩
  · rw [hwrite]
    show dget (fileToolExecute "read" p none ((p, c) :: fs)).1 "success" = _
    unfold fileToolExecute
    rw [if_pos (by rfl), hread]
    rfl
  · rw [hwrite]
    unfold fileToolExecute
    rw [if_pos (by rfl), hread]
    rfl
  · unfold fileToolExecute
    rw [if_pos (by rfl), hq]
    rfl
  · refine ⟨"[Errno 2] No such file or directory: \x27" ++ q ++ "\x27", ?_, ?_⟩
    · intro he
      have hl := congrArg String.length he
      simp [String.length_append] at hl
      exact absurd hl.2 (by decide)
    · unfold fileToolExecute
      rw [if_pos (by rfl), hq]
      rfl

/-- C8 witness: the theorem at the concrete instance of the spec's
example — writing `Hello` to `demo.txt` in the empty filesystem and
reading it back, plus a read of a missing path. -/
theorem file_tool_contract_witness :
    dget (fileToolExecute "write" "demo.txt" (some "Hello") []).1 "success" =
      some (.vbool true) ∧
    dget (fileToolExecute "read" "demo.txt" none
        (fileToolExecute "write" "demo.txt" (some "Hello") []).2).1 "success" =
      some (.vbool true) ∧
    dget (fileToolExecute "read" "demo.txt" none
        (fileToolExecute "write" "demo.txt" (some "Hello") []).2).1 "content" =
      some (.vstr "Hello") ∧
    dget (fileToolExecute "read" "missing.txt" none []).1 "success" =
      some (.vbool false) ∧
    (∃ msg : String, msg ≠ "" ∧
      dget (fileToolExecute "read" "missing.txt" none []).1 "error" =
        some (.vstr msg)) ∧
    (∀ r : String,
      dget (fileToolExecute "exists" r none []).1 "success" = some (.vbool true) ∧
      dget (fileToolExecute "exists" r none []).1 "exists" =
        some (.vbool (fsRead [] r).isSome)) :=
  file_tool_contract [] "demo.txt" "Hello" "missing.txt" rfl

/-- Helper: `execute_step` returns exactly what its `try` body returns
when the body does not raise. -/
theorem executeStep_of_body_ok (b : ToolBehavior) (s : TaskStep) (r : TaskStep × Bool)
    (h : executeStepBody b { s with status := "running" } = .ok r) :
    executeStep b s = r := by
  unfold executeStep
  simp only [h]

/-- C5 counterexample: the empty string is not a registered tool name,
yet a step whose `tool_name` is `""` does not terminate `failed` — the
truthiness guard `if step.tool_name:` treats it as a pure-text step and
the step completes.  This refutes the claim that a step referencing any
unregistered tool name always terminates failed. -/
theorem execute_step_empty_tool_name_completes :
    "" ∉ registeredToolNames ∧
    (executeStep (fun _ _ => .error "unused")
        (mkTaskStep (.vint 1) (.vstr "演示步骤") (.vstr "") (.vdict []))).1.status =
      "completed" := by
  exact ⟨by decide, by rfl⟩

/-- Helper: `execute_step` converts a raised body exception into a
`failed` step carrying the exception text. -/
theorem executeStep_of_body_error (b : ToolBehavior) (s : TaskStep) (e : String)
    (h : executeStepBody b { s with status := "running" } = .error e) :
    executeStep b s =
      ({ s with status := "failed", error := .vstr e }, false) := by
  unfold executeStep
  simp only [h]

/-- C5 (amended): `execute_tool` on any unregistered name returns, without
raising, the failure dictionary with success false and an error message
identifying the unknown tool; consequently a step referencing an
unregistered *non-empty* tool name, with a mapping as parameters that
contains neither a `tool_name` nor a `self` key, terminates `failed` with
that message as its error.  The two carve-outs are forced by the source:
an empty-string tool name is falsy and is treated as a pure-text step
that completes, and a `tool_name` key in the parameters collides with
`execute_tool`'s own positional parameter, so the dispatch call itself
raises `TypeError` and the step fails with the `TypeError` text instead
of the unknown-tool message (last two conjuncts). -/
theorem execute_tool_unknown_name (behavior : ToolBehavior) (name : String)
    (kwargs : PyDict) (sid desc : PyVal)
    (h1 : name ∉ registeredToolNames) (h2 : name ≠ "")
    (h3 : kwargs.find? (fun p => p.1 == "self" || p.1 == "tool_name") = none) :
    executeTool behavior name kwargs = .ok (unknownToolDict name) ∧
    unknownToolDict name =
      [("success", .vbool false), ("error", .vstr ("工具不存在: " ++ name))] ∧
    (executeStep behavior (mkTaskStep sid desc (.vstr name) (.vdict kwargs))).1.status =
      "failed" ∧
    (executeStep behavior (mkTaskStep sid desc (.vstr name) (.vdict kwargs))).1.error =
      .vstr ("工具不存在: " ++ name) ∧
    (∀ extra : PyVal,
      (executeStep behavior (mkTaskStep sid desc (.vstr name)
          (.vdict (("tool_name", extra) :: kwargs)))).1.status = "failed") ∧
    (∀ extra : PyVal,
      (executeStep behavior (mkTaskStep sid desc (.vstr name)
          (.vdict (("tool_name", extra) :: kwargs)))).1.error =
        .vstr "execute_tool() got multiple values for argument \x27tool_name\x27") := by
  have hdisp : executeTool behavior name kwargs = .ok (unknownToolDict name) := by
    unfold executeTool
    rw [if_neg h1]
  have hstep : (mkTaskStep sid desc (.vstr name) (.vdict kwargs)).parameters =
      .vdict kwargs := by
    unfold mkTaskStep
    split
    · rfl
    · rename_i hf
      simp only [pyTruthy, Bool.not_eq_true] at hf
      have : kwargs.isEmpty = true := by
        cases hk : kwargs.isEmpty
        · rw [hk] at hf; simp at hf
        · rfl
      rw [List.isEmpty_iff] at this
      rw [this]
  have htruthy : pyTruthy (mkTaskStep sid desc (.vstr name) (.vdict kwargs)).tool_name = true := by
    show pyTruthy (.vstr name) = true
    simp [pyTruthy, h2]
  have hinvoke : invokeToolValue behavior
      (mkTaskStep sid desc (.vstr name) (.vdict kwargs)).tool_name
      (mkTaskStep sid desc (.vstr name) (.vdict kwargs)).parameters =
      .ok (unknownToolDict name) := by
    rw [hstep]
    show invokeToolValue behavior (.vstr name) (.vdict kwargs) = _
    unfold invokeToolValue
    simp only [h3]
    exact hdisp
  have hbody : executeStepBody behavior
      { mkTaskStep sid desc (.vstr name) (.vdict kwargs) with status := "running" } =
      .ok ({ mkTaskStep sid desc (.vstr name) (.vdict kwargs) with
              status := "failed", result := .vdict (unknownToolDict name),
              error := .vstr ("工具不存在: " ++ name) }, false) := by
    unfold executeStepBody
    rw [if_pos htruthy, hinvoke]
    rfl
  have hexec := executeStep_of_body_ok behavior
    (mkTaskStep sid desc (.vstr name) (.vdict kwargs)) _ hbody
  have hbody2 : ∀ extra : PyVal, executeStepBody behavior
      { mkTaskStep sid desc (.vstr name) (.vdict (("tool_name", extra) :: kwargs)) with
        status := "running" } =
      .error "execute_tool() got multiple values for argument \x27tool_name\x27" := by
    intro extra
    unfold executeStepBody
    rw [if_pos (by show pyTruthy (.vstr name) = true; simp [pyTruthy, h2])]
    rfl
  have hexec2 : ∀ extra : PyVal,
      executeStep behavior (mkTaskStep sid desc (.vstr name)
          (.vdict (("tool_name", extra) :: kwargs))) =
      ({ mkTaskStep sid desc (.vstr name) (.vdict (("tool_name", extra) :: kwargs)) with
          status := "failed",
          error := .vstr "execute_tool() got multiple values for argument \x27tool_name\x27" },
        false) :=
    fun extra => executeStep_of_body_error behavior _ _ (hbody2 extra)
  refine ⟨hdisp, rfl, ?_, ?_, ?_, ?_⟩
  · rw [hexec]
  · rw [hexec]
  · intro extra; rw [hexec2 extra]
  · intro extra; rw [hexec2 extra]

/-- C5 witness: the amended theorem at the unregistered tool name
`database` with an empty parameter mapping. -/
theorem execute_tool_unknown_name_witness :
    executeTool (fun _ _ => .error "unused") "database" [] =
      .ok (unknownToolDict "database") ∧
    unknownToolDict "database" =
      [("success", .vbool false), ("error", .vstr ("工具不存在: " ++ "database"))] ∧
    (executeStep (fun _ _ => .error "unused")
        (mkTaskStep (.vint 1) (.vstr "查询数据") (.vstr "database") (.vdict []))).1.status =
      "failed" ∧
    (executeStep (fun _ _ => .error "unused")
        (mkTaskStep (.vint 1) (.vstr "查询数据") (.vstr "database") (.vdict []))).1.error =
      .vstr ("工具不存在: " ++ "database") ∧
    (∀ extra : PyVal,
      (executeStep (fun _ _ => .error "unused") (mkTaskStep (.vint 1) (.vstr "查询数据")
          (.vstr "database") (.vdict (("tool_name", extra) :: [])))).1.status = "failed") ∧
    (∀ extra : PyVal,
      (executeStep (fun _ _ => .error "unused") (mkTaskStep (.vint 1) (.vstr "查询数据")
          (.vstr "database") (.vdict (("tool_name", extra) :: [])))).1.error =
        .vstr "execute_tool() got multiple values for argument \x27tool_name\x27") :=
  execute_tool_unknown_name (fun _ _ => .error "unused") "database" []
    (.vint 1) (.vstr "查询数据") (by decide) (by decide) rfl

/-- C4 counterexample: a reply fenced with lowercase ```json is repaired
to its JSON body, but the same reply fenced with uppercase ```JSON keeps
the language tag in the text — the two are not repaired the same way,
refuting the claimed casing-independence. -/
theorem clean_response_casing_matters :
    cleanLLMResponse "```json\n[]\n```" = .ok "[]" ∧
    cleanLLMResponse "```JSON\n[]\n```" = .ok "JSON\n[]" ∧
    ("JSON\n[]" : String) ≠ "[]" := by
  refine ⟨by rfl, by rfl, by decide⟩

/-- C4 (amended): the fence stripping of `plan_task` is case-sensitive —
a reply of the form ```json·body·``` is stripped to exactly `body`, while
```JSON·body·``` only loses the bare backtick fences, keeping the `JSON`
tag; after stripping, the text is re-trimmed and re-checked for
emptiness, so an all-fence reply (for example "```" or "```json\n```")
is a planning failure. -/
theorem clean_response_fence_stripping :
    (∀ s : List Char, stripFenceL (fenceJson ++ s ++ fenceMark) = s) ∧
    (∀ s : List Char,
      stripFenceL ("```JSON".toList ++ s ++ fenceMark) = "JSON".toList ++ s) ∧
    cleanLLMResponse "```" = .error "清理后LLM响应为空" ∧
    cleanLLMResponse "```json\n```" = .error "清理后LLM响应为空" :=
  ⟨stripFenceL_json, stripFenceL_upper, by rfl, by rfl⟩

/-- C2 counterexample: a backend that replies with the valid JSON text
`[]` makes `plan_task` return the empty step list — no exception, no
fallback — refuting the claim that `plan_task` always returns a
non-empty list. -/
theorem plan_task_can_return_empty :
    (planTask (fun _ => .ok "[]") jsonParseModel "统计代码行数" ⟨[], 0⟩).1 = [] := by
  rfl

/-- C2 (amended): `plan_task` never raises, and on every planning failure
— the backend call raising, the reply empty or whitespace-only or
all-fence, the cleaned reply failing to decode, or the decoded elements
failing step construction (e.g. a missing `step_id` or `description`) —
it returns exactly one fallback step whose description restates the task
and which names no tool.  When the backend reply decodes to an empty
array, however, `plan_task` returns the empty list, so the result is not
always non-empty. -/
theorem plan_task_fallback_contract (chat : ChatOracle) (jsonLoads : JsonLoads)
    (task : String) (st : AgentState) :
    ((fallbackStep task).description = .vstr ("执行任务: " ++ task) ∧
     (fallbackStep task).tool_name = .vnone) ∧
    (∀ e, chat (planMessages task) = .error e →
      planTask chat jsonLoads task st = ([fallbackStep task], st)) ∧
    (∀ r e, chat (planMessages task) = .ok r → cleanLLMResponse r = .error e →
      planTask chat jsonLoads task st = ([fallbackStep task], addMessage "assistant" r st)) ∧
    (∀ r c e, chat (planMessages task) = .ok r → cleanLLMResponse r = .ok c →
      jsonLoads c = .error e →
      planTask chat jsonLoads task st = ([fallbackStep task], addMessage "assistant" r st)) ∧
    (∀ r c v e, chat (planMessages task) = .ok r → cleanLLMResponse r = .ok c →
      jsonLoads c = .ok v → (pyIterate v >>= buildSteps) = .error e →
      planTask chat jsonLoads task st = ([fallbackStep task], addMessage "assistant" r st)) := by
  refine ⟨⟨rfl, rfl⟩, ?_, ?_, ?_, ?_⟩
  · intro e hchat
    unfold planTask
    simp only [hchat]
  · intro r e hchat hclean
    unfold planTask
    simp only [hchat, hclean]
  · intro r c e hchat hclean hjson
    unfold planTask
    simp only [hchat, hclean, hjson]
  · intro r c v e hchat hclean hjson hbuild
    unfold planTask
    simp only [hchat, hclean, hjson, hbuild]

/-- C2 witness: the amended theorem's first failure clause at a backend
that raises. -/
theorem plan_task_fallback_contract_witness :
    planTask (fun _ => Except.error "网络错误") jsonParseModel "整理项目文档" ⟨[], 0⟩ =
      ([fallbackStep "整理项目文档"], ⟨[], 0⟩) :=
  (plan_task_fallback_contract (fun _ => Except.error "网络错误") jsonParseModel
    "整理项目文档" ⟨[], 0⟩).2.1 "网络错误" rfl

/-- C10: whenever the planning backend call returns a reply, `plan_task`
appends that raw reply to the conversation history as an `assistant`
entry before any parsing — whatever later becomes of the parse — and an
`execute_task` call whose reply fails to decode therefore grows the
transcript by exactly three entries: the user task, the raw reply
appended from within planning, and the final assistant tally. -/
theorem plan_task_appends_raw_reply (chat : ChatOracle) (behavior : ToolBehavior)
    (jsonLoads : JsonLoads) (task reply : String) (st : AgentState)
    (hchat : chat (planMessages task) = .ok reply) :
    (planTask chat jsonLoads task st).2 = addMessage "assistant" reply st ∧
    (∀ cleaned err, cleanLLMResponse reply = .ok cleaned → jsonLoads cleaned = .error err →
      (executeTask chat behavior jsonLoads task st).2.history =
        st.history ++
          [⟨"user", task, st.clock⟩, ⟨"assistant", reply, st.clock + 1⟩,
           ⟨"assistant", tallyMessage 1 0, st.clock + 3⟩]) := by
  constructor
  · unfold planTask
    simp only [hchat]
    cases hc : cleanLLMResponse reply with
    | error e => rfl
    | ok c =>
      cases hj : jsonLoads c with
      | error e => simp only [hj]
      | ok v =>
        cases hb : pyIterate v >>= buildSteps with
        | error e => simp only [hj, hb]
        | ok steps => simp only [hj, hb]
  · intro cleaned err hclean hjson
    have hplan : planTask chat jsonLoads task (addMessage "user" task st) =
        ([fallbackStep task], addMessage "assistant" reply (addMessage "user" task st)) := by
      unfold planTask
      simp only [hchat, hclean, hjson]
    have hrun : runSteps behavior [fallbackStep task] =
        ([{ fallbackStep task with
              status := "completed",
              result := .vdict [("message", .vstr "步骤完成")] }], 1, 0) := by
      rfl
    unfold executeTask
    simp only [hplan, hrun]
    simp [addMessage, tallyMessage, List.append_assoc, Nat.add_assoc]

/-- C10 witness: a backend replying `not json` (which fails to decode)
grows an initially empty transcript by exactly the three entries. -/
theorem plan_task_appends_raw_reply_witness :
    (planTask (fun _ => .ok "not json") jsonParseModel "演示" ⟨[], 5⟩).2 =
      addMessage "assistant" "not json" ⟨[], 5⟩ ∧
    (executeTask (fun _ => .ok "not json") (fun _ _ => .error "boom")
        jsonParseModel "演示" ⟨[], 5⟩).2.history =
      ([] : List TranscriptEntry) ++
        [⟨"user", "演示", 5⟩, ⟨"assistant", "not json", 6⟩,
         ⟨"assistant", tallyMessage 1 0, 8⟩] := by
  have h := plan_task_appends_raw_reply (fun _ => .ok "not json")
    (fun _ _ => .error "boom") jsonParseModel "演示" "not json" ⟨[], 5⟩ rfl
  exact ⟨h.1, h.2 "not json" "json: invalid" rfl rfl⟩

/-- C3: for every backend, tool and decoder behavior, `execute_task` runs
every planned step — in planner order, with no short-circuit, so every
executed step reaches a terminal state and the step identities are
preserved index-wise — and the returned result satisfies
`successful_steps + failed_steps = total_steps = ` the number of planned
steps. -/
theorem execute_task_step_accounting (chat : ChatOracle) (behavior : ToolBehavior)
    (jsonLoads : JsonLoads) (task : String) (st : AgentState) :
    ∃ (executed : List TaskStep) (succ fail : Nat),
      runSteps behavior (planTask chat jsonLoads task (addMessage "user" task st)).1 =
        (executed, succ, fail) ∧
      executed.length =
        (planTask chat jsonLoads task (addMessage "user" task st)).1.length ∧
      succ + fail =
        (planTask chat jsonLoads task (addMessage "user" task st)).1.length ∧
      (∀ t ∈ executed, t.status = "completed" ∨ t.status = "failed") ∧
      executed.map (fun t => t.step_id) =
        (planTask chat jsonLoads task (addMessage "user" task st)).1.map
          (fun s => s.step_id) ∧
      executed.map (fun t => t.description) =
        (planTask chat jsonLoads task (addMessage "user" task st)).1.map
          (fun s => s.description) ∧
      getItem (executeTask chat behavior jsonLoads task st).1 "successful_steps" =
        .ok (.vint succ) ∧
      getItem (executeTask chat behavior jsonLoads task st).1 "failed_steps" =
        .ok (.vint fail) ∧
      getItem (executeTask chat behavior jsonLoads task st).1 "total_steps" =
        .ok (.vint (planTask chat jsonLoads task (addMessage "user" task st)).1.length) := by
  refine ⟨(runSteps behavior (planTask chat jsonLoads task (addMessage "user" task st)).1).1,
          (runSteps behavior (planTask chat jsonLoads task (addMessage "user" task st)).1).2.1,
          (runSteps behavior (planTask chat jsonLoads task (addMessage "user" task st)).1).2.2,
          rfl, ?_, ?_, ?_, ?_, ?_, rfl, rfl, rfl⟩
  · rw [runSteps_fst]
    exact List.length_map _ _
  · exact runSteps_count behavior _
  · rw [runSteps_fst]
    intro t ht
    obtain ⟨s, hs, rfl⟩ := List.mem_map.mp ht
    exact (executeStep_spec behavior s).1
  · rw [runSteps_fst, List.map_map]
    exact List.map_congr_left (fun s hs => (executeStep_spec behavior s).2.1)
  · rw [runSteps_fst, List.map_map]
    exact List.map_congr_left (fun s hs => (executeStep_spec behavior s).2.2)

/-- C1: for every task string and every behavior of the completion
backend, of the tools and of the JSON decoder — including each of them
raising — `execute_task` is a total function (it never raises; every
fallible collaborator call is caught by a component), and its result is a
well-formed dictionary with exactly the keys `task`, `steps`, `summary`,
`successful_steps`, `failed_steps`, `total_steps`, `timestamp`, echoing
the task text. -/
theorem execute_task_total_and_wellformed (chat : ChatOracle) (behavior : ToolBehavior)
    (jsonLoads : JsonLoads) (task : String) (st : AgentState) :
    ∃ fields : PyDict,
      (executeTask chat behavior jsonLoads task st).1 = .vdict fields ∧
      fields.map Prod.fst =
        ["task", "steps", "summary", "successful_steps", "failed_steps",
         "total_steps", "timestamp"] ∧
      dget fields "task" = some (.vstr task) := by
  refine ⟨_, rfl, rfl, rfl⟩
